import Mathlib

/-!
Shallow embedding of `src/viewer/lib/primary-section.ts` (the markup
normalization engine of the design_arena repository) and verification of the
spec's claims about it.

Strings are modelled as `List Char`; every JavaScript regex used by the source
is hand-translated into an explicit scanner with the same semantics
(leftmost match, greedy / lazy quantifiers, single global pass, case
sensitivity as flagged).  `String`-level wrappers mirror the exported API.
-/

set_option maxRecDepth 8000
set_option maxHeartbeats 2000000

namespace PrimarySection

/-- The characters `` ` ``, `"`, `'`, `\x7b`, `\x7d` by code point, to keep
delimiter handling uniform. -/
def chBT : Char := Char.ofNat 96

def chDQ : Char := Char.ofNat 34

def chSQ : Char := Char.ofNat 39

def chLB : Char := Char.ofNat 123

def chRB : Char := Char.ofNat 125

/-- The character class matched by JavaScript `\s` (WhiteSpace and
LineTerminator code points). -/
def jsWsChars : List Char :=
  [Char.ofNat 9, Char.ofNat 10, Char.ofNat 11, Char.ofNat 12, Char.ofNat 13,
   Char.ofNat 32, Char.ofNat 160, Char.ofNat 5760,
   Char.ofNat 8192, Char.ofNat 8193, Char.ofNat 8194, Char.ofNat 8195,
   Char.ofNat 8196, Char.ofNat 8197, Char.ofNat 8198, Char.ofNat 8199,
   Char.ofNat 8200, Char.ofNat 8201, Char.ofNat 8202,
   Char.ofNat 8232, Char.ofNat 8233, Char.ofNat 8239, Char.ofNat 8287,
   Char.ofNat 12288, Char.ofNat 65279]

def isJsWS (c : Char) : Bool := jsWsChars.contains c

/-- `[a-zA-Z_:]`, the first character of an attribute name. -/
def isNameStart (c : Char) : Bool := c.isAlpha || c = '_' || c = ':'

/-- `[a-zA-Z0-9_:.-]`, the remaining characters of an attribute name. -/
def isNameChar (c : Char) : Bool :=
  c.isAlpha || c.isDigit || c = '_' || c = ':' || c = '.' || c = '-'

/-- Case-insensitive character comparison as performed by the `i` regex flag
(ASCII simple folding, which covers every pattern in the source). -/
def eqCI (a b : Char) : Bool := a.toLower = b.toLower

def skipWs (cs : List Char) : List Char := cs.dropWhile isJsWS

/-- `String.prototype.trim`. -/
def jsTrimList (cs : List Char) : List Char :=
  ((cs.dropWhile isJsWS).reverse.dropWhile isJsWS).reverse

/-- Match a literal pattern case-sensitively at the head; returns the consumed
original characters and the remainder. -/
def stripCS : List Char → List Char → Option (List Char × List Char)
  | [], cs => some ([], cs)
  | _ :: _, [] => none
  | p :: ps, c :: cs =>
    if p = c then
      match stripCS ps cs with
      | some (m, r) => some (c :: m, r)
      | none => none
    else none

/-- Match a literal pattern case-insensitively at the head (regex `i` flag). -/
def stripCI : List Char → List Char → Option (List Char × List Char)
  | [], cs => some ([], cs)
  | _ :: _, [] => none
  | p :: ps, c :: cs =>
    if eqCI p c then
      match stripCI ps cs with
      | some (m, r) => some (c :: m, r)
      | none => none
    else none

/-- Lazy `[\s\S]*?` followed by a case-insensitive literal: consume the
shortest prefix ending with an occurrence of `pat`.  Returns (consumed
characters including the occurrence, remainder). -/
def lazyUntilCI (pat : List Char) : Nat → List Char → Option (List Char × List Char)
  | fuel, cs =>
    match stripCI pat cs with
    | some (m, r) => some (m, r)
    | none =>
      match fuel, cs with
      | _, [] => none
      | 0, _ => none
      | f + 1, c :: cs' =>
        match lazyUntilCI pat f cs' with
        | some (m, r) => some (c :: m, r)
        | none => none

/-- One global-regex replacement pass (`String.prototype.replace` with the `g`
flag): scan left to right over the original text; at each position either the
matcher fires, emitting a replacement and resuming after the match, or the
character is copied.  Replacements are never rescanned within the pass. -/
def replaceScan (m : List Char → Option (List Char × List Char)) :
    Nat → List Char → List Char
  | _, [] => []
  | 0, cs => cs
  | f + 1, c :: cs =>
    match m (c :: cs) with
    | some (rep, rest) => rep ++ replaceScan m f rest
    | none => c :: replaceScan m f cs

def runReplace (m : List Char → Option (List Char × List Char))
    (cs : List Char) : List Char :=
  replaceScan m cs.length cs

/-- `RegExp.prototype.exec` without the `g` flag: the leftmost match. -/
def findScan (m : List Char → Option (List Char × List Char)) :
    Nat → List Char → Option (List Char)
  | _, [] => none
  | 0, _ => none
  | f + 1, c :: cs =>
    match m (c :: cs) with
    | some (mt, _) => some mt
    | none => findScan m f cs

def runFind (m : List Char → Option (List Char × List Char))
    (cs : List Char) : Option (List Char) :=
  findScan m cs.length cs

/-! ### Stage: JSX-artifact stripper (`stripJsxArtifacts`) -/

/-- Tail of the comment pattern after the opening brace-whitespace-`/*`:
lazy scan for a `*/` that is followed by whitespace and the closing brace;
on a failed closing check the lazy star extends by one character
(regex backtracking).  Returns the remainder after the closing brace. -/
def commentEnd : Nat → List Char → Option (List Char)
  | fuel, cs =>
    match
      (match stripCS ['*', '/'] cs with
       | some (_, r) =>
         match skipWs r with
         | c :: rest => if c = chRB then some rest else none
         | [] => none
       | none => none)
    with
    | some rest => some rest
    | none =>
      match fuel, cs with
      | _, [] => none
      | 0, _ => none
      | f + 1, _ :: cs' => commentEnd f cs'

/-- Matcher for `\x7b\s*\/\*[\s\S]*?\*\/\s*\x7d` (brace-wrapped block
comment), replaced by the empty string. -/
def mComment (cs : List Char) : Option (List Char × List Char) :=
  match stripCS [chLB] cs with
  | some (_, r) =>
    match stripCS ['/', '*'] (skipWs r) with
    | some (_, r2) =>
      match commentEnd r2.length r2 with
      | some rest => some ([], rest)
      | none => none
    | none => none
  | none => none

/-- Matcher for a brace-wrapped single quote character
(`\x7b\s*["'`]\s*\x7d`), replaced by one space. -/
def mEmptyQuote (cs : List Char) : Option (List Char × List Char) :=
  match stripCS [chLB] cs with
  | some (_, r) =>
    match skipWs r with
    | c :: r2 =>
      if c = chDQ ∨ c = chSQ ∨ c = chBT then
        match skipWs r2 with
        | c2 :: rest => if c2 = chRB then some ([' '], rest) else none
        | [] => none
      else none
    | [] => none
  | none => none

/-- Matcher for a brace-wrapped `q`-quoted string expression
(`\x7b\s*q([^q]+)q\s*\x7d`), replaced by the captured literal text. -/
def mTemplate (q : Char) (cs : List Char) : Option (List Char × List Char) :=
  match stripCS [chLB] cs with
  | some (_, r) =>
    match skipWs r with
    | c :: r2 =>
      if c = q then
        let t := r2.takeWhile (fun d => ¬ d = q)
        match t, r2.drop t.length with
        | [], _ => none
        | _ :: _, c2 :: r3 =>
          if c2 = q then
            match skipWs r3 with
            | c3 :: rest => if c3 = chRB then some (t, rest) else none
            | [] => none
          else none
        | _ :: _, [] => none
      else none
    | [] => none
  | none => none

/-- Matcher for the fragment-open shorthand `<>`. -/
def mFragOpen (cs : List Char) : Option (List Char × List Char) :=
  match stripCS ['<', '>'] cs with
  | some (_, rest) => some (("<div class=\"arena-fragment\">").data, rest)
  | none => none

/-- Matcher for the fragment-close shorthand `</>`. -/
def mFragClose (cs : List Char) : Option (List Char × List Char) :=
  match stripCS ['<', '/', '>'] cs with
  | some (_, rest) => some (("</div>").data, rest)
  | none => none

/-- `stripJsxArtifacts`: six chained global replaces, in source order. -/
def stripJsxArtifacts (cs : List Char) : List Char :=
  runReplace mFragClose
    (runReplace mFragOpen
      (runReplace (mTemplate chSQ)
        (runReplace (mTemplate chDQ)
          (runReplace (mTemplate chBT)
            (runReplace mEmptyQuote
              (runReplace mComment cs))))))

/-! ### Stage: class-binding converter (`convertClassBindings`) -/

/-- Matcher for the literal `className=`, renamed to `class=`. -/
def mClassNameEq (cs : List Char) : Option (List Char × List Char) :=
  match stripCS ("className=").data cs with
  | some (_, rest) => some (("class=").data, rest)
  | none => none

/-- Matcher for `class=\x7b\s*q([^q]+)q\s*\x7d`, replaced by a literal
double-quoted class attribute. -/
def mClassQuoted (q : Char) (cs : List Char) : Option (List Char × List Char) :=
  match stripCS (("class=").data ++ [chLB]) cs with
  | some (_, r) =>
    match skipWs r with
    | c :: r2 =>
      if c = q then
        let t := r2.takeWhile (fun d => ¬ d = q)
        match t, r2.drop t.length with
        | [], _ => none
        | _ :: _, c2 :: r3 =>
          if c2 = q then
            match skipWs r3 with
            | c3 :: rest =>
              if c3 = chRB then some (("class=").data ++ chDQ :: t ++ [chDQ], rest)
              else none
            | [] => none
          else none
        | _ :: _, [] => none
      else none
    | [] => none
  | none => none

/-- The flattening applied to a general brace-wrapped class expression:
split on whitespace, `+` and `|`, strip quote characters from each token,
drop empties and re-join with single spaces. -/
def classExprTokens (t : List Char) : List (List Char) :=
  ((t.splitOnP (fun c => isJsWS c || c = '+' || c = '|')).map
    (fun tok =>
      jsTrimList (tok.filter (fun c => !(c = chDQ ∨ c = chSQ ∨ c = chBT : Bool))))).filter
    (fun tok => !tok.isEmpty)

def joinSp (ts : List (List Char)) : List Char := List.intercalate [' '] ts

/-- Matcher for `class=\x7b\s*([^\x7d]+)\s*\x7d` (any remaining brace-wrapped
class expression).  The leading `\s*` is greedy and backtracks one character
when the expression is whitespace-only, which is exactly what the capture
receives in that case. -/
def mClassExpr (cs : List Char) : Option (List Char × List Char) :=
  match stripCS (("class=").data ++ [chLB]) cs with
  | some (_, r) =>
    let w := r.takeWhile isJsWS
    let b := r.drop w.length
    let t := b.takeWhile (fun d => ¬ d = chRB)
    match b.drop t.length with
    | c :: rest =>
      if c = chRB then
        match t with
        | _ :: _ =>
          some (("class=").data ++ chDQ :: joinSp (classExprTokens t) ++ [chDQ], rest)
        | [] =>
          match w.reverse with
          | lastW :: _ =>
            some (("class=").data ++ chDQ :: joinSp (classExprTokens [lastW]) ++ [chDQ], rest)
          | [] => none
      else none
    | [] => none
  | none => none

/-- `convertClassBindings`: five chained global replaces, in source order. -/
def convertClassBindings (cs : List Char) : List Char :=
  runReplace mClassExpr
    (runReplace (mClassQuoted chSQ)
      (runReplace (mClassQuoted chDQ)
        (runReplace (mClassQuoted chBT)
          (runReplace mClassNameEq cs))))

/-! ### Attribute grammar (`parseAttributes` and friends) -/

/-- Match `op[^cl]*cl`, a delimited value; returns (consumed, rest). -/
def delimVal (op cl : Char) (cs : List Char) : Option (List Char × List Char) :=
  match cs with
  | c :: r =>
    if c = op then
      let t := r.takeWhile (fun d => ¬ d = cl)
      match r.drop t.length with
      | c2 :: rest => if c2 = cl then some (c :: (t ++ [c2]), rest) else none
      | [] => none
    else none
  | [] => none

/-- The three value alternatives of the attribute regex, tried in source
order: brace expression, double-quoted, single-quoted. -/
def attrValue (cs : List Char) : Option (List Char × List Char) :=
  match delimVal chLB chRB cs with
  | some v => some v
  | none =>
    match delimVal chDQ chDQ cs with
    | some v => some v
    | none => delimVal chSQ chSQ cs

/-- One attempt of `([a-zA-Z_:][a-zA-Z0-9_:.-]*)\s*=\s*(value)` at the current
position; returns (name, raw value, rest). -/
def mAttr (cs : List Char) : Option (List Char × List Char × List Char) :=
  match cs with
  | c :: r =>
    if isNameStart c then
      let nmTail := r.takeWhile isNameChar
      match skipWs (r.drop nmTail.length) with
      | '=' :: r3 =>
        match attrValue (skipWs r3) with
        | some (raw, rest) => some (c :: nmTail, raw, rest)
        | none => none
      | _ => none
    else none
  | [] => none

/-- The `exec` loop of `parseAttributes`: successive non-overlapping matches
in left-to-right order. -/
def attrScan : Nat → List Char → List (List Char × List Char)
  | _, [] => []
  | 0, _ => []
  | f + 1, c :: cs =>
    match mAttr (c :: cs) with
    | some (k, v, rest) => (k, v) :: attrScan f rest
    | none => attrScan f cs

/-- `unwrapAttributeValue`. -/
def unwrapAttributeValue (v : List Char) : List Char :=
  let t := jsTrimList v
  if t.isEmpty then []
  else
    let hd := t.headD ' '
    let lst := t.getLastD ' '
    if (hd = chLB ∧ lst = chRB) ∨ (hd = '(' ∧ lst = ')') then
      jsTrimList ((t.drop 1).dropLast)
    else if (hd = chDQ ∧ lst = chDQ) ∨ (hd = chSQ ∧ lst = chSQ) then
      (t.drop 1).dropLast
    else t

/-- An attribute map: a JavaScript object with string keys, i.e. an
association list in key-insertion order where re-assignment overwrites the
value in place. -/
abbrev AttrMap := List (List Char × List Char)

/-- Store an own property: overwrite the value in place when the key exists,
else append. -/
def storeA : AttrMap → List Char → List Char → AttrMap
  | [], k, v => [(k, v)]
  | (k', v') :: rest, k, v =>
    if k' = k then (k', v) :: rest else (k', v') :: storeA rest k v

/-- The key `__proto__`, whose assignment on a plain object hits the
inherited `Object.prototype` accessor instead of creating an own property. -/
def protoKey : List Char := ("__proto__").data

/-- The JavaScript assignment `attrs[key] = value`: for the key `__proto__`
the inherited accessor silently discards a string value (no own property is
created), otherwise the own property is stored, overwriting in place. -/
def insertA (m : AttrMap) (k v : List Char) : AttrMap :=
  if k = protoKey then m else storeA m k v

def lookupA : AttrMap → List Char → Option (List Char)
  | [], _ => none
  | (k', v') :: rest, k => if k' = k then some v' else lookupA rest k

def eraseA (m : AttrMap) (k : List Char) : AttrMap :=
  m.filter (fun kv => !(kv.1 = k : Bool))

/-- `parseAttributes`: run the scan loop, assigning each match into the map
(`attrs[key] = unwrapAttributeValue(rawValue)`). -/
def parseAttributes (src : List Char) : AttrMap :=
  (attrScan src.length src).foldl
    (fun m kv => insertA m kv.1 (unwrapAttributeValue kv.2)) []

/-- `splitClasses`: quote and brace characters become spaces, then split on
whitespace and drop empties. -/
def splitClasses (v : List Char) : List (List Char) :=
  ((v.map (fun c =>
      if c = chBT ∨ c = chDQ ∨ c = chSQ ∨ c = chLB ∨ c = chRB then ' ' else c)).splitOnP
    isJsWS).filter (fun t => !t.isEmpty)

/-- One pass of single-character escaping. -/
def escChar (c : Char) (rep : List Char) (cs : List Char) : List Char :=
  (cs.map (fun d => if d = c then rep else [d])).flatten

/-- `escapeAttribute`: escape `&`, `"`, `<`, `>`, in that order of passes. -/
def escapeAttribute (v : List Char) : List Char :=
  escChar '>' ("&gt;").data
    (escChar '<' ("&lt;").data
      (escChar chDQ ("&quot;").data
        (escChar '&' ("&amp;").data v)))

/-- `buildTagAttributes`.  `keepOnly = []` models the absent / empty
keep-list, in which case no keep-only filtering happens. -/
def buildTagAttributes (attrs : List Char) (baseClass : List Char)
    (stripAttrs : List (List Char)) (keepOnly : List (List Char)) : List Char :=
  let parsed := parseAttributes attrs
  let parsed := stripAttrs.foldl (fun m k => eraseA m k) parsed
  let parsed :=
    if keepOnly.isEmpty then parsed
    else parsed.filter (fun kv => keepOnly.contains kv.1)
  let step1 :=
    match lookupA parsed ("className").data with
    | some v =>
      if v.isEmpty then (([] : List (List Char)), parsed)
      else (splitClasses v, eraseA parsed ("className").data)
    | none => (([] : List (List Char)), parsed)
  let step2 :=
    match lookupA step1.2 ("class").data with
    | some v =>
      if v.isEmpty then (([] : List (List Char)), step1.2)
      else (splitClasses v, eraseA step1.2 ("class").data)
    | none => (([] : List (List Char)), step1.2)
  let classes := (baseClass :: (step1.1 ++ step2.1)).filter (fun t => !t.isEmpty)
  let pairs := step2.2.map (fun kv => kv.1 ++ '=' :: chDQ :: (escapeAttribute kv.2 ++ [chDQ]))
  (" class=").data ++ chDQ :: (joinSp classes ++ [chDQ]) ++
    (if pairs.isEmpty then [] else ' ' :: joinSp pairs)

/-! ### Stage: component rewriter (`convertCustomComponents`) -/

/-- Matcher for the opening-tag regex `<Name([^>]*)>` of `replaceComponent`
(case-sensitive), with its replacement. -/
def mOpenTag (name tag baseClass : List Char) (stripAttrs : List (List Char))
    (cs : List Char) : Option (List Char × List Char) :=
  match stripCS ('<' :: name) cs with
  | some (_, r) =>
    let attrs := r.takeWhile (fun d => ¬ d = '>')
    match r.drop attrs.length with
    | c :: rest =>
      if c = '>' then
        some ('<' :: (tag ++ buildTagAttributes attrs baseClass stripAttrs [] ++ ['>']), rest)
      else none
    | [] => none
  | none => none

/-- Matcher for the closing-tag regex `</Name>` of `replaceComponent`. -/
def mCloseTag (name tag : List Char) (cs : List Char) :
    Option (List Char × List Char) :=
  match stripCS ('<' :: '/' :: (name ++ ['>'])) cs with
  | some (_, rest) => some ('<' :: '/' :: (tag ++ ['>']), rest)
  | none => none

/-- `replaceComponent`: the opening-tag pass, then the closing-tag pass. -/
def replaceComponent (src : List Char) (name tag baseClass : String)
    (stripAttrs : List String) : List Char :=
  runReplace (mCloseTag name.data tag.data)
    (runReplace (mOpenTag name.data tag.data baseClass.data (stripAttrs.map String.data)) src)

/-- Matcher for the self-closing regex `<Name([^>]*)/>` of
`replaceSelfClosing`; the greedy `[^>]*` must end just before a `/`
immediately followed by `>`. -/
def mSelfClose (name tag baseClass : List Char) (keepOnly : List (List Char))
    (cs : List Char) : Option (List Char × List Char) :=
  match stripCS ('<' :: name) cs with
  | some (_, r) =>
    let run := r.takeWhile (fun d => ¬ d = '>')
    match r.drop run.length with
    | c :: rest =>
      if c = '>' then
        match run.reverse with
        | '/' :: revAttrs =>
          some ('<' :: (tag ++ buildTagAttributes revAttrs.reverse baseClass [] keepOnly ++
            ('>' :: '<' :: '/' :: (tag ++ ['>']))), rest)
        | _ => none
      else none
    | [] => none
  | none => none

def replaceSelfClosing (src : List Char) (name tag baseClass : String)
    (keepOnly : List String) : List Char :=
  runReplace (mSelfClose name.data tag.data baseClass.data (keepOnly.map String.data)) src

/-- `convertCustomComponents`: the static rewrite catalog, applied in source
order. -/
def convertCustomComponents (src : List Char) : List Char :=
  let o := src
  let o := replaceComponent o "Button" "button" "arena-btn" ["variant", "size", "asChild"]
  let o := replaceComponent o "Badge" "span" "arena-badge" []
  let o := replaceComponent o "Card" "div" "arena-card" []
  let o := replaceComponent o "CardHeader" "div" "arena-card__header" []
  let o := replaceComponent o "CardContent" "div" "arena-card__content" []
  let o := replaceComponent o "CardTitle" "h3" "arena-card__title" []
  let o := replaceComponent o "CardDescription" "p" "arena-card__description" []
  let o := replaceComponent o "CardFooter" "div" "arena-card__footer" []
  let o := replaceComponent o "Tabs" "div" "arena-tabs" []
  let o := replaceComponent o "TabsList" "div" "arena-tabs__list" []
  let o := replaceComponent o "TabsTrigger" "button" "arena-tabs__trigger" ["value"]
  let o := replaceComponent o "TabsContent" "div" "arena-tabs__content" ["value"]
  let o := replaceComponent o "Link" "a" "arena-link" ["prefetch", "legacyBehavior"]
  let o := replaceComponent o "Input" "input" "arena-input" ["type"]
  let o := replaceComponent o "Label" "label" "arena-label" []
  let o := replaceComponent o "Textarea" "textarea" "arena-textarea" []
  let o := replaceComponent o "Avatar" "div" "arena-avatar" []
  let o := replaceComponent o "AvatarImage" "div" "arena-avatar__image" ["src", "alt"]
  let o := replaceComponent o "AvatarFallback" "span" "arena-avatar__fallback" []
  replaceSelfClosing o "Image" "div" "arena-image" ["src", "alt", "width", "height"]

/-! ### Stage: markup sanitizer (`sanitizeMarkup`) -/

/-- Matcher for `<script[\s\S]*?<\/script>` (case-insensitive). -/
def mScript (cs : List Char) : Option (List Char × List Char) :=
  match stripCI ("<script").data cs with
  | some (_, r) =>
    match lazyUntilCI ("</script>").data r.length r with
    | some (_, rest) => some ([], rest)
    | none => none
  | none => none

/-- After the mandatory leading whitespace: `on[a-z]+\s*=` (case-insensitive);
returns the remainder after the `=`. -/
def handlerTail (cs : List Char) : Option (List Char) :=
  match stripCI ("on").data cs with
  | some (_, r) =>
    let letters := r.takeWhile Char.isAlpha
    if letters.isEmpty then none
    else
      match skipWs (r.drop letters.length) with
      | '=' :: r2 => some r2
      | _ => none
  | none => none

/-- Matcher for `\son[a-z]+\s*=\s*op[^cl]*cl` (one of the three event-handler
forms, selected by the delimiters). -/
def mHandlerDelim (op cl : Char) (cs : List Char) :
    Option (List Char × List Char) :=
  match cs with
  | c :: r =>
    if isJsWS c then
      match handlerTail r with
      | some r2 =>
        match delimVal op cl (skipWs r2) with
        | some (_, rest) => some ([], rest)
        | none => none
      | none => none
    else none
  | [] => none

/-- Matcher for `style=op[^cl]*cl` (case-insensitive, no whitespace around
`=`). -/
def mStyleDelim (op cl : Char) (cs : List Char) :
    Option (List Char × List Char) :=
  match stripCI ("style=").data cs with
  | some (_, r) =>
    match delimVal op cl r with
    | some (_, rest) => some ([], rest)
    | none => none
  | none => none

/-- `sanitizeMarkup`: seven chained global replaces, in source order
(script, handler double / single / brace, style brace / double / single). -/
def sanitizeMarkup (cs : List Char) : List Char :=
  runReplace (mStyleDelim chSQ chSQ)
    (runReplace (mStyleDelim chDQ chDQ)
      (runReplace (mStyleDelim chLB chRB)
        (runReplace (mHandlerDelim chLB chRB)
          (runReplace (mHandlerDelim chSQ chSQ)
            (runReplace (mHandlerDelim chDQ chDQ)
              (runReplace mScript cs))))))

/-! ### Primary section extractor -/

/-- `id=(["'])hero\1` (case-insensitive letters, exact backreferenced
quote). -/
def idHero (cs : List Char) : Option (List Char × List Char) :=
  match stripCI ("id=").data cs with
  | some (m1, r) =>
    match r with
    | q :: r2 =>
      if q = chDQ ∨ q = chSQ then
        match stripCI ("hero").data r2 with
        | some (m2, r3) =>
          match r3 with
          | q2 :: r4 => if q2 = q then some (m1 ++ q :: (m2 ++ [q2]), r4) else none
          | [] => none
        | none => none
      else none
    | [] => none
  | none => none

/-- Matcher for `HERO_SECTION_REGEX`:
`<section[^>]*id=(["'])hero\1[\s\S]*?<\/section>` with the `i` flag.  The
greedy `[^>]*` tries the longest prefix of the `>`-free run first and
backtracks. -/
def mHero (cs : List Char) : Option (List Char × List Char) :=
  match stripCI ("<section").data cs with
  | some (m0, r) =>
    let run := r.takeWhile (fun d => ¬ d = '>')
    ((List.range (run.length + 1)).reverse).findSome? (fun i =>
      match idHero (r.drop i) with
      | some (m1, r2) =>
        match lazyUntilCI ("</section>").data r2.length r2 with
        | some (m2, r3) => some (m0 ++ (r.take i ++ m1 ++ m2), r3)
        | none => none
      | none => none)
  | none => none

/-- Matcher for `MAIN_SECTION_REGEX`: `<main[\s\S]*?<\/main>` with `i`. -/
def mMain (cs : List Char) : Option (List Char × List Char) :=
  match stripCI ("<main").data cs with
  | some (m0, r) =>
    match lazyUntilCI ("</main>").data r.length r with
    | some (m1, rest) => some (m0 ++ m1, rest)
    | none => none
  | none => none

def heroExec (cs : List Char) : Option (List Char) := runFind mHero cs

def mainExec (cs : List Char) : Option (List Char) := runFind mMain cs

/-- `extractFallbackSection`: the main element, else the trimmed source when
nonempty, else null. -/
def extractFallbackSection (cs : List Char) : Option (List Char) :=
  match mainExec cs with
  | some m => some m
  | none =>
    let t := jsTrimList cs
    if t.isEmpty then none else some t

/-- `normalizeSection`: empty in, empty out; otherwise the four stages in
order. -/
def normalizeSection (cs : List Char) : List Char :=
  if cs.isEmpty then []
  else sanitizeMarkup (convertCustomComponents (convertClassBindings (stripJsxArtifacts cs)))

structure ExtractionResult where
  sanitizedHtml : String
  rawSection : String
deriving DecidableEq

/-- `extractPrimarySection` on character lists: candidate selection (hero,
else fallback, else the whole response) followed by normalization. -/
def extractPrimarySectionL (cs : List Char) : List Char × List Char :=
  let rawSection :=
    match heroExec cs with
    | some m => m
    | none =>
      match extractFallbackSection cs with
      | some f => f
      | none => cs
  (normalizeSection rawSection, rawSection)

/-- The exported entry point. -/
def extractPrimarySection (s : String) : ExtractionResult :=
  ⟨⟨(extractPrimarySectionL s.data).1⟩, ⟨(extractPrimarySectionL s.data).2⟩⟩

def sanitizeMarkupStr (s : String) : String := ⟨sanitizeMarkup s.data⟩

def convertCustomComponentsStr (s : String) : String := ⟨convertCustomComponents s.data⟩

def parseAttributesStr (s : String) : AttrMap := parseAttributes s.data

/-- Case-insensitive prefix test, for stating the sanitizer claims. -/
def isPrefixOfCI : List Char → List Char → Bool
  | [], _ => true
  | _ :: _, [] => false
  | p :: ps, c :: cs => eqCI p c && isPrefixOfCI ps cs

/-- Case-insensitive substring containment, for stating the sanitizer
claims. -/
def containsCI (hay pat : List Char) : Bool :=
  (List.range (hay.length + 1)).any (fun i => isPrefixOfCI pat (hay.drop i))

/-- The matcher `m` fires nowhere in `cs`: a replacement pass with `m` leaves
`cs` unchanged. -/
def matcherInert (m : List Char → Option (List Char × List Char))
    (cs : List Char) : Prop :=
  ∀ i, i < cs.length → m (cs.drop i) = none

instance (m : List Char → Option (List Char × List Char)) (cs : List Char) :
    Decidable (matcherInert m cs) := by
  unfold matcherInert; exact Nat.decidableBallLT _ _

/-- None of the seven sanitizer patterns occurs in `cs`. -/
def sanitizerInert (cs : List Char) : Prop :=
  matcherInert mScript cs ∧ matcherInert (mHandlerDelim chDQ chDQ) cs ∧
    matcherInert (mHandlerDelim chSQ chSQ) cs ∧
    matcherInert (mHandlerDelim chLB chRB) cs ∧
    matcherInert (mStyleDelim chLB chRB) cs ∧
    matcherInert (mStyleDelim chDQ chDQ) cs ∧
    matcherInert (mStyleDelim chSQ chSQ) cs

instance (cs : List Char) : Decidable (sanitizerInert cs) := by
  unfold sanitizerInert; infer_instance

/-! ## Helper lemmas -/

theorem all_drop {p : Char → Bool} {cs : List Char} (h : cs.all p = true)
    (i : Nat) : (cs.drop i).all p = true := by
  rw [List.all_eq_true] at h ⊢
  exact fun x hx => h x (List.drop_subset i cs hx)

theorem all_tail {p : Char → Bool} {c : Char} {cs : List Char}
    (h : (c :: cs).all p = true) : cs.all p = true := by
  simp [List.all_cons] at h
  simpa [List.all_eq_true] using h.2

theorem all_head {p : Char → Bool} {c : Char} {cs : List Char}
    (h : (c :: cs).all p = true) : p c = true := by
  simp [List.all_cons] at h
  exact h.1

/-- A replacement pass whose matcher fires nowhere is the identity. -/
theorem replaceScan_id {m : List Char → Option (List Char × List Char)} :
    ∀ (f : Nat) (cs : List Char), matcherInert m cs → replaceScan m f cs = cs := by
  intro f
  induction f with
  | zero => intro cs _; cases cs <;> rfl
  | succ f ih =>
    intro cs h
    cases cs with
    | nil => rfl
    | cons c cs' =>
      have h0 : m (c :: cs') = none := by simpa using h 0 (by simp)
      have h' : matcherInert m cs' := by
        intro i hi
        simpa [List.drop_succ_cons] using h (i + 1) (by simpa using hi)
      simp [replaceScan, h0, ih cs' h']

theorem runReplace_id {m : List Char → Option (List Char × List Char)}
    {cs : List Char} (h : matcherInert m cs) : runReplace m cs = cs :=
  replaceScan_id cs.length cs h

/-- A search whose matcher fires nowhere returns no match. -/
theorem findScan_none {m : List Char → Option (List Char × List Char)} :
    ∀ (f : Nat) (cs : List Char), matcherInert m cs → findScan m f cs = none := by
  intro f
  induction f with
  | zero => intro cs _; cases cs <;> rfl
  | succ f ih =>
    intro cs h
    cases cs with
    | nil => rfl
    | cons c cs' =>
      have h0 : m (c :: cs') = none := by simpa using h 0 (by simp)
      have h' : matcherInert m cs' := by
        intro i hi
        simpa [List.drop_succ_cons] using h (i + 1) (by simpa using hi)
      simp [findScan, h0, ih cs' h']

theorem matcherInert_of_all_ws {m : List Char → Option (List Char × List Char)}
    (hm : ∀ ds : List Char, ds.all isJsWS = true → m ds = none)
    {cs : List Char} (h : cs.all isJsWS = true) : matcherInert m cs :=
  fun i _ => hm _ (all_drop h i)

theorem ws_mem {c : Char} (h : isJsWS c = true) : c ∈ jsWsChars := by
  simpa [isJsWS, List.contains_iff_exists_mem_beq, beq_iff_eq, eq_comm] using h

/-- The facts about whitespace characters needed to show that every pipeline
matcher fails on whitespace-only text. -/
theorem ws_facts {c : Char} (h : isJsWS c = true) :
    eqCI '<' c = false ∧ eqCI 'c' c = false ∧ eqCI 's' c = false ∧
      eqCI 'o' c = false ∧ ¬ '<' = c ∧ ¬ chLB = c ∧ ¬ 'c' = c := by
  have hm := ws_mem h
  fin_cases hm <;> decide

theorem stripCS_cons_none {p c : Char} {ps cs : List Char} (h : ¬ p = c) :
    stripCS (p :: ps) (c :: cs) = none := by
  simp [stripCS, h]

theorem stripCI_cons_none {p c : Char} {ps cs : List Char} (h : eqCI p c = false) :
    stripCI (p :: ps) (c :: cs) = none := by
  simp [stripCI, h]

/-! ### No pipeline matcher fires on whitespace-only text -/

theorem mComment_ws {cs : List Char} (h : cs.all isJsWS = true) :
    mComment cs = none := by
  cases cs with
  | nil => rfl
  | cons c cs' =>
    have hn : stripCS [chLB] (c :: cs') = none :=
      stripCS_cons_none (ws_facts (all_head h)).2.2.2.2.2.1
    simp [mComment, hn]

theorem mEmptyQuote_ws {cs : List Char} (h : cs.all isJsWS = true) :
    mEmptyQuote cs = none := by
  cases cs with
  | nil => rfl
  | cons c cs' =>
    have hn : stripCS [chLB] (c :: cs') = none :=
      stripCS_cons_none (ws_facts (all_head h)).2.2.2.2.2.1
    simp [mEmptyQuote, hn]

theorem mTemplate_ws (q : Char) {cs : List Char} (h : cs.all isJsWS = true) :
    mTemplate q cs = none := by
  cases cs with
  | nil => rfl
  | cons c cs' =>
    have hn : stripCS [chLB] (c :: cs') = none :=
      stripCS_cons_none (ws_facts (all_head h)).2.2.2.2.2.1
    simp [mTemplate, hn]

theorem mFragOpen_ws {cs : List Char} (h : cs.all isJsWS = true) :
    mFragOpen cs = none := by
  cases cs with
  | nil => rfl
  | cons c cs' =>
    have hn : stripCS ['<', '>'] (c :: cs') = none :=
      stripCS_cons_none (ws_facts (all_head h)).2.2.2.2.1
    simp [mFragOpen, hn]

theorem mFragClose_ws {cs : List Char} (h : cs.all isJsWS = true) :
    mFragClose cs = none := by
  cases cs with
  | nil => rfl
  | cons c cs' =>
    have hn : stripCS ['<', '/', '>'] (c :: cs') = none :=
      stripCS_cons_none (ws_facts (all_head h)).2.2.2.2.1
    simp [mFragClose, hn]

theorem mClassNameEq_ws {cs : List Char} (h : cs.all isJsWS = true) :
    mClassNameEq cs = none := by
  cases cs with
  | nil => rfl
  | cons c cs' =>
    have hn : stripCS (("className=").data) (c :: cs') = none :=
      stripCS_cons_none (ws_facts (all_head h)).2.2.2.2.2.2
    simp [mClassNameEq, hn]

theorem mClassQuoted_ws (q : Char) {cs : List Char} (h : cs.all isJsWS = true) :
    mClassQuoted q cs = none := by
  cases cs with
  | nil => rfl
  | cons c cs' =>
    have hn : stripCS ['c', 'l', 'a', 's', 's', '=', chLB] (c :: cs') = none :=
      stripCS_cons_none (ws_facts (all_head h)).2.2.2.2.2.2
    simp [mClassQuoted, hn]

theorem mClassExpr_ws {cs : List Char} (h : cs.all isJsWS = true) :
    mClassExpr cs = none := by
  cases cs with
  | nil => rfl
  | cons c cs' =>
    have hn : stripCS ['c', 'l', 'a', 's', 's', '=', chLB] (c :: cs') = none :=
      stripCS_cons_none (ws_facts (all_head h)).2.2.2.2.2.2
    simp [mClassExpr, hn]

theorem mOpenTag_ws (name tag baseClass : List Char) (strip : List (List Char))
    {cs : List Char} (h : cs.all isJsWS = true) :
    mOpenTag name tag baseClass strip cs = none := by
  cases cs with
  | nil => rfl
  | cons c cs' =>
    have hn : stripCS ('<' :: name) (c :: cs') = none :=
      stripCS_cons_none (ws_facts (all_head h)).2.2.2.2.1
    simp [mOpenTag, hn]

theorem mCloseTag_ws (name tag : List Char) {cs : List Char}
    (h : cs.all isJsWS = true) : mCloseTag name tag cs = none := by
  cases cs with
  | nil => rfl
  | cons c cs' =>
    have hn : stripCS ('<' :: '/' :: (name ++ ['>'])) (c :: cs') = none :=
      stripCS_cons_none (ws_facts (all_head h)).2.2.2.2.1
    simp [mCloseTag, hn]

theorem mSelfClose_ws (name tag baseClass : List Char) (keep : List (List Char))
    {cs : List Char} (h : cs.all isJsWS = true) :
    mSelfClose name tag baseClass keep cs = none := by
  cases cs with
  | nil => rfl
  | cons c cs' =>
    have hn : stripCS ('<' :: name) (c :: cs') = none :=
      stripCS_cons_none (ws_facts (all_head h)).2.2.2.2.1
    simp [mSelfClose, hn]

theorem mScript_ws {cs : List Char} (h : cs.all isJsWS = true) :
    mScript cs = none := by
  cases cs with
  | nil => rfl
  | cons c cs' =>
    have hn : stripCI (("<script").data) (c :: cs') = none :=
      stripCI_cons_none (ws_facts (all_head h)).1
    simp [mScript, hn]

theorem handlerTail_ws {cs : List Char} (h : cs.all isJsWS = true) :
    handlerTail cs = none := by
  cases cs with
  | nil => rfl
  | cons c cs' =>
    have hn : stripCI (("on").data) (c :: cs') = none :=
      stripCI_cons_none (ws_facts (all_head h)).2.2.2.1
    simp [handlerTail, hn]

theorem mHandlerDelim_ws (op cl : Char) {cs : List Char}
    (h : cs.all isJsWS = true) : mHandlerDelim op cl cs = none := by
  cases cs with
  | nil => rfl
  | cons c cs' =>
    simp [mHandlerDelim, all_head h, handlerTail_ws (all_tail h)]

theorem mStyleDelim_ws (op cl : Char) {cs : List Char}
    (h : cs.all isJsWS = true) : mStyleDelim op cl cs = none := by
  cases cs with
  | nil => rfl
  | cons c cs' =>
    have hn : stripCI (("style=").data) (c :: cs') = none :=
      stripCI_cons_none (ws_facts (all_head h)).2.2.1
    simp [mStyleDelim, hn]

theorem mHero_ws {cs : List Char} (h : cs.all isJsWS = true) :
    mHero cs = none := by
  cases cs with
  | nil => rfl
  | cons c cs' =>
    have hn : stripCI (("<section").data) (c :: cs') = none :=
      stripCI_cons_none (ws_facts (all_head h)).1
    simp [mHero, hn]

theorem mMain_ws {cs : List Char} (h : cs.all isJsWS = true) :
    mMain cs = none := by
  cases cs with
  | nil => rfl
  | cons c cs' =>
    have hn : stripCI (("<main").data) (c :: cs') = none :=
      stripCI_cons_none (ws_facts (all_head h)).1
    simp [mMain, hn]

/-! ### Whitespace-only input passes through every stage unchanged -/

theorem runReplace_ws {m : List Char → Option (List Char × List Char)}
    (hm : ∀ ds : List Char, ds.all isJsWS = true → m ds = none)
    {cs : List Char} (h : cs.all isJsWS = true) : runReplace m cs = cs :=
  runReplace_id (matcherInert_of_all_ws hm h)

theorem stripJsxArtifacts_ws {cs : List Char} (h : cs.all isJsWS = true) :
    stripJsxArtifacts cs = cs := by
  unfold stripJsxArtifacts
  rw [runReplace_ws (fun _ h => mComment_ws h) h,
    runReplace_ws (fun _ h => mEmptyQuote_ws h) h,
    runReplace_ws (fun _ h => mTemplate_ws chBT h) h,
    runReplace_ws (fun _ h => mTemplate_ws chDQ h) h,
    runReplace_ws (fun _ h => mTemplate_ws chSQ h) h,
    runReplace_ws (fun _ h => mFragOpen_ws h) h,
    runReplace_ws (fun _ h => mFragClose_ws h) h]

theorem convertClassBindings_ws {cs : List Char} (h : cs.all isJsWS = true) :
    convertClassBindings cs = cs := by
  unfold convertClassBindings
  rw [runReplace_ws (fun _ h => mClassNameEq_ws h) h,
    runReplace_ws (fun _ h => mClassQuoted_ws chBT h) h,
    runReplace_ws (fun _ h => mClassQuoted_ws chDQ h) h,
    runReplace_ws (fun _ h => mClassQuoted_ws chSQ h) h,
    runReplace_ws (fun _ h => mClassExpr_ws h) h]

theorem replaceComponent_ws {cs : List Char} (h : cs.all isJsWS = true)
    (name tag baseClass : String) (strip : List String) :
    replaceComponent cs name tag baseClass strip = cs := by
  unfold replaceComponent
  rw [runReplace_ws (fun _ h => mOpenTag_ws _ _ _ _ h) h,
    runReplace_ws (fun _ h => mCloseTag_ws _ _ h) h]

theorem replaceSelfClosing_ws {cs : List Char} (h : cs.all isJsWS = true)
    (name tag baseClass : String) (keep : List String) :
    replaceSelfClosing cs name tag baseClass keep = cs := by
  unfold replaceSelfClosing
  rw [runReplace_ws (fun _ h => mSelfClose_ws _ _ _ _ h) h]

theorem convertCustomComponents_ws {cs : List Char} (h : cs.all isJsWS = true) :
    convertCustomComponents cs = cs := by
  unfold convertCustomComponents
  simp only [replaceComponent_ws h, replaceSelfClosing_ws h]

theorem sanitizeMarkup_ws {cs : List Char} (h : cs.all isJsWS = true) :
    sanitizeMarkup cs = cs := by
  unfold sanitizeMarkup
  rw [runReplace_ws (fun _ h => mScript_ws h) h,
    runReplace_ws (fun _ h => mHandlerDelim_ws chDQ chDQ h) h,
    runReplace_ws (fun _ h => mHandlerDelim_ws chSQ chSQ h) h,
    runReplace_ws (fun _ h => mHandlerDelim_ws chLB chRB h) h,
    runReplace_ws (fun _ h => mStyleDelim_ws chLB chRB h) h,
    runReplace_ws (fun _ h => mStyleDelim_ws chDQ chDQ h) h,
    runReplace_ws (fun _ h => mStyleDelim_ws chSQ chSQ h) h]

theorem normalizeSection_ws {cs : List Char} (h : cs.all isJsWS = true) :
    normalizeSection cs = cs := by
  unfold normalizeSection
  by_cases he : cs.isEmpty
  · simp [he, List.isEmpty_iff.mp he]
  · simp [he, stripJsxArtifacts_ws h, convertClassBindings_ws h,
      convertCustomComponents_ws h, sanitizeMarkup_ws h]

theorem jsTrimList_ws {cs : List Char} (h : cs.all isJsWS = true) :
    jsTrimList cs = [] := by
  unfold jsTrimList
  have h1 : cs.dropWhile isJsWS = [] := by
    rw [List.dropWhile_eq_nil_iff]
    rw [List.all_eq_true] at h
    exact fun x hx => h x hx
  simp [h1]

theorem heroExec_ws {cs : List Char} (h : cs.all isJsWS = true) :
    heroExec cs = none :=
  findScan_none cs.length cs
    (matcherInert_of_all_ws (fun _ h => mHero_ws h) h)

theorem mainExec_ws {cs : List Char} (h : cs.all isJsWS = true) :
    mainExec cs = none :=
  findScan_none cs.length cs
    (matcherInert_of_all_ws (fun _ h => mMain_ws h) h)

/-! ### The sanitizer is the identity where none of its patterns occur -/

theorem sanitizeMarkup_id_of_inert {cs : List Char} (h : sanitizerInert cs) :
    sanitizeMarkup cs = cs := by
  obtain ⟨h1, h2, h3, h4, h5, h6, h7⟩ := h
  unfold sanitizeMarkup
  rw [runReplace_id h1, runReplace_id h2, runReplace_id h3, runReplace_id h4,
    runReplace_id h5, runReplace_id h6, runReplace_id h7]

/-! ### Association-list lemmas for the attribute map -/

theorem lookupA_storeA_self (m : AttrMap) (k v : List Char) :
    lookupA (storeA m k v) k = some v := by
  induction m with
  | nil => simp [storeA, lookupA]
  | cons kv m ih =>
    obtain ⟨k0, v0⟩ := kv
    by_cases h0 : k0 = k
    · simp [storeA, h0, lookupA]
    · simp [storeA, h0, lookupA, ih]

theorem lookupA_storeA_ne (m : AttrMap) {k k' : List Char} (hk : ¬ k = k')
    (v : List Char) : lookupA (storeA m k v) k' = lookupA m k' := by
  induction m with
  | nil => simp [storeA, lookupA, hk]
  | cons kv m ih =>
    obtain ⟨k0, v0⟩ := kv
    by_cases h0 : k0 = k
    · subst h0
      simp [storeA, lookupA, hk]
    · by_cases h1 : k0 = k'
      · subst h1
        simp [storeA, lookupA, h0]
      · simp [storeA, h0, lookupA, h1, ih]

theorem lookupA_insertA_self (m : AttrMap) {k : List Char}
    (hk : ¬ k = protoKey) (v : List Char) :
    lookupA (insertA m k v) k = some v := by
  simp [insertA, hk, lookupA_storeA_self]

theorem lookupA_insertA_ne (m : AttrMap) {k k' : List Char} (hk : ¬ k = k')
    (v : List Char) : lookupA (insertA m k v) k' = lookupA m k' := by
  unfold insertA
  by_cases hp : k = protoKey
  · simp [hp]
  · simp [hp, lookupA_storeA_ne _ hk]

/-- Folding the scan-match list through the JavaScript assignment: for the
key `__proto__` every assignment is discarded and the lookup falls through
to the initial map; for any other key the lookup returns the value of the
last match with that key, else falls back to the initial map. -/
theorem lookupA_foldl_insert (k : List Char) :
    ∀ (l : List (List Char × List Char)) (init : AttrMap),
      lookupA (l.foldl (fun m kv => insertA m kv.1 (unwrapAttributeValue kv.2)) init) k =
        (if k = protoKey then lookupA init k
         else
          match l.reverse.find? (fun kv => kv.1 == k) with
          | some kv => some (unwrapAttributeValue kv.2)
          | none => lookupA init k) := by
  intro l
  induction l with
  | nil =>
    intro init
    by_cases hp : k = protoKey <;> simp [hp]
  | cons x l ih =>
    intro init
    rw [List.foldl_cons, ih]
    by_cases hp : k = protoKey
    · simp only [if_pos hp]
      by_cases hx : x.1 = k
      · rw [hx, hp]
        simp [insertA]
      · exact lookupA_insertA_ne _ hx _
    · simp only [if_neg hp]
      rw [List.reverse_cons, List.find?_append]
      cases hf : l.reverse.find? (fun kv => kv.1 == k) with
      | some kv => simp
      | none =>
        by_cases hx : x.1 = k
        · have hx' : (x.1 == k) = true := by simpa using hx
          simp [List.find?, hx', hx, lookupA_insertA_self _ hp]
        · have hx' : (x.1 == k) = false := by simpa using hx
          simp [List.find?, hx', lookupA_insertA_ne _ hx]

/-! ## Claims -/

/-- C1: the spec claims that for every input containing a `<script>` element,
the sanitizedHtml returned by `extractPrimarySection` contains no `<script`
substring (case-insensitively).  The code violates this: the single-pass
script-block removal can splice the surrounding text into a new script
element.  This theorem evaluates the pipeline at such a failing input: the
input contains the script element `<script></script>` twice, yet the
sanitized output is a complete executable `<script>alert(1)</script>`
element, so the `<script` substring survives. -/
theorem c1_script_survives_extraction :
    (extractPrimarySection
        "<scr<script></script>ipt>alert(1)</scr<script></script>ipt>").sanitizedHtml =
      "<script>alert(1)</script>" ∧
    containsCI
      ((extractPrimarySection
        "<scr<script></script>ipt>alert(1)</scr<script></script>ipt>").sanitizedHtml).data
      (("<script").data) = true := by
  decide

/-- C2: the spec claims that for every input containing an inline
event-handler attribute (name matching `on[a-zA-Z]+` with a quoted or braced
value), sanitizedHtml contains no `on[a-zA-Z]+=` attribute.  The code
violates this: removing the whitespace-anchored ` onclick="x"` splices the
neighbouring text `o` and `nclick="y"` into a brand-new `onclick="y"`
attribute, which the already-finished double-quote pass never revisits. -/
theorem c2_handler_survives_extraction :
    (extractPrimarySection "<div o onclick=\"x\"nclick=\"y\">").sanitizedHtml =
      "<div onclick=\"y\">" ∧
    containsCI
      ((extractPrimarySection "<div o onclick=\"x\"nclick=\"y\">").sanitizedHtml).data
      (("onclick=").data) = true := by
  decide

/-- C3 counterexample: the claim says no rule's opening-tag pattern matches a
tag occurrence belonging to a different rule's source name, explicitly citing
that the Card rule never matches a `<CardHeader ...>` tag.  In fact the Card
opening pattern `<Card([^>]*)>` matches `<CardHeader>` (capturing `Header`
as the attribute text), and since Card runs before CardHeader the element is
rewritten with the base class `arena-card`, not `arena-card__header`. -/
theorem c3_card_matches_cardheader :
    convertCustomComponentsStr "<CardHeader>x</CardHeader>" =
      "<div class=\"arena-card\">x</div>" ∧
    ¬ convertCustomComponentsStr "<CardHeader>x</CardHeader>" =
        "<div class=\"arena-card__header\">x</div>" := by
  decide

/-- C3 amended: closing-tag patterns are disjoint, but the opening-tag
pattern of a rule whose source name is a proper prefix of another rule's
name (Card, Tabs, Avatar) also matches the longer rule's opening tags, and
the prefix rule runs first and consumes them.  Demonstrated on the other two
prefix families: `<TabsList>` is rewritten by the Tabs rule and
`<AvatarImage>` by the Avatar rule. -/
theorem c3_prefix_rules_capture_extensions :
    convertCustomComponentsStr "<TabsList>a</TabsList>" =
      "<div class=\"arena-tabs\">a</div>" ∧
    convertCustomComponentsStr "<AvatarImage>b</AvatarImage>" =
      "<div class=\"arena-avatar\">b</div>" := by
  decide

/-- C4 counterexample: the sanitizer stage is not idempotent.  The first pass
over `<scr<script></script>ipt>x</script>` removes the inner script block and
thereby assembles the new block `<script>x</script>`, which a second pass
removes entirely. -/
theorem c4_sanitizer_not_idempotent :
    sanitizeMarkupStr "<scr<script></script>ipt>x</script>" = "<script>x</script>" ∧
    sanitizeMarkupStr (sanitizeMarkupStr "<scr<script></script>ipt>x</script>") = "" ∧
    ¬ sanitizeMarkupStr (sanitizeMarkupStr "<scr<script></script>ipt>x</script>") =
        sanitizeMarkupStr "<scr<script></script>ipt>x</script>" := by
  decide

/-- C4 amended: `sanitizeMarkup` is idempotent on every input whose first
sanitizer output contains no occurrence of any of the seven sanitizer
patterns; on such inputs a second application is the identity.  (The
unrestricted claim fails because one pass can assemble a new pattern
occurrence, as the counterexample shows.) -/
theorem c4_idempotent_on_inert_output (s : String)
    (h : sanitizerInert (sanitizeMarkup s.data)) :
    sanitizeMarkupStr (sanitizeMarkupStr s) = sanitizeMarkupStr s := by
  unfold sanitizeMarkupStr
  exact congrArg String.mk (sanitizeMarkup_id_of_inert h)

/-- C4 witness: a concrete already-inert sanitizer output on which the
amended idempotence theorem applies. -/
theorem c4_idempotent_on_inert_output_witness :
    sanitizerInert (sanitizeMarkup ("<p>hi</p>").data) ∧
      sanitizeMarkupStr (sanitizeMarkupStr "<p>hi</p>") = sanitizeMarkupStr "<p>hi</p>" :=
  ⟨by decide, c4_idempotent_on_inert_output "<p>hi</p>" (by decide)⟩

/-- C5 counterexample: the claim says every whitespace-only input yields
`{sanitizedHtml := "", rawSection := ""}`.  In fact a single space is
returned unchanged in both fields: the fallback `source.trim() || null`
rejects the trimmed empty string, so the raw (untrimmed) response itself
becomes the candidate section, and every stage leaves pure whitespace
untouched. -/
theorem c5_whitespace_not_empty_result :
    extractPrimarySection " " = ⟨" ", " "⟩ ∧
      ¬ extractPrimarySection " " = ⟨"", ""⟩ := by
  decide

/-- C5 amended: for every input consisting only of whitespace (including the
empty string), `extractPrimarySection` returns the input itself in both
fields and does not raise; in particular the empty string yields
`{sanitizedHtml := "", rawSection := ""}`. -/
theorem c5_trivial_input_identity (s : String) (h : s.data.all isJsWS = true) :
    extractPrimarySection s = ⟨s, s⟩ := by
  have hh : heroExec s.data = none := heroExec_ws h
  have hm : mainExec s.data = none := mainExec_ws h
  have ht : jsTrimList s.data = [] := jsTrimList_ws h
  have hn : normalizeSection s.data = s.data := normalizeSection_ws h
  simp [extractPrimarySection, extractPrimarySectionL, extractFallbackSection,
    hh, hm, ht, hn]

/-- C5 witness: the amended theorem applied to the empty string and to a
single space. -/
theorem c5_trivial_input_identity_witness :
    ((("").data.all isJsWS = true) ∧ extractPrimarySection "" = ⟨"", ""⟩) ∧
      (((" ").data.all isJsWS = true) ∧ extractPrimarySection " " = ⟨" ", " "⟩) :=
  ⟨⟨by decide, c5_trivial_input_identity "" (by decide)⟩,
    ⟨by decide, c5_trivial_input_identity " " (by decide)⟩⟩

/-- C6 counterexample: the claim quantifies over every input containing both
a section element with id equal to "hero" and a main element.  This input
contains both — the conjunct records that the hero section occurs verbatim
in the input — yet `HERO_SECTION_REGEX` cannot match it: the `[^>]*` part
cannot cross the `>` inside the earlier quoted attribute value `foo=">"`,
so the code selects the main element, not the hero section. -/
theorem c6_main_selected_despite_hero_section :
    containsCI ("<main>A</main><section foo=\">\" id=\"hero\">B</section>").data
        (("<section foo=\">\" id=\"hero\">B</section>").data) = true ∧
    (extractPrimarySection
        "<main>A</main><section foo=\">\" id=\"hero\">B</section>").rawSection =
      "<main>A</main>" ∧
    ¬ (extractPrimarySection
          "<main>A</main><section foo=\">\" id=\"hero\">B</section>").rawSection =
        "<section foo=\">\" id=\"hero\">B</section>" := by
  decide

/-- C6 amended: candidate-section selection gives the hero REGEX match
priority over everything else: whenever `HERO_SECTION_REGEX` finds a match,
that match is the rawSection (the main element and the trimmed-input
fallback are never consulted) and sanitizedHtml is its normalization.  The
witness instantiates this at the claim's concrete input, where the hero
section is selected over the earlier main element.  (The unrestricted
claim fails when the input's hero-id section defeats the regex, e.g. by a
`>` inside an earlier quoted attribute value, as the counterexample
shows.) -/
theorem c6_hero_beats_fallback (s : String) (m : List Char)
    (h : heroExec s.data = some m) :
    extractPrimarySection s = ⟨⟨normalizeSection m⟩, ⟨m⟩⟩ := by
  simp [extractPrimarySection, extractPrimarySectionL, h]

/-- C6 witness: on `<html><main>A</main><section id="hero">B</section></html>`
the hero matcher fires on the hero section, so it is selected over the main
element, exactly as the claim's concrete instance requires. -/
theorem c6_hero_beats_fallback_witness :
    heroExec ("<html><main>A</main><section id=\"hero\">B</section></html>").data =
        some (("<section id=\"hero\">B</section>").data) ∧
      extractPrimarySection "<html><main>A</main><section id=\"hero\">B</section></html>" =
        ⟨"<section id=\"hero\">B</section>", "<section id=\"hero\">B</section>"⟩ := by
  refine ⟨by decide, ?_⟩
  rw [c6_hero_beats_fallback _ (("<section id=\"hero\">B</section>").data) (by decide)]
  decide

/-- C7 counterexample: the claim says that with a duplicated attribute name
the first occurrence's value wins.  In fact the parse of ` a="1" a="2"`
holds `2`, not `1`: each regex match is assigned into the object, so a later
occurrence overwrites an earlier one. -/
theorem c7_first_occurrence_loses :
    parseAttributesStr " a=\"1\" a=\"2\"" = [(("a").data, ("2").data)] ∧
      ¬ lookupA (parseAttributesStr " a=\"1\" a=\"2\"") (("a").data) =
          some (("1").data) := by
  decide

/-- C7 amended: when an attribute name occurs more than once in a tag's
attribute text, the map holds the value of the LAST occurrence in
left-to-right scan order — except for the name `__proto__`, whose
assignments the JavaScript object silently discards (the inherited
`Object.prototype` accessor creates no own property for a string value), so
its lookup is always empty.  For every other key, looking up
`parseAttributes` returns the unwrapped value of the last scan match with
that key. -/
theorem c7_last_occurrence_wins (src k : List Char) :
    lookupA (parseAttributes src) k =
      (if k = protoKey then none
       else
        ((attrScan src.length src).reverse.find? (fun kv => kv.1 == k)).map
          (fun kv => unwrapAttributeValue kv.2)) := by
  unfold parseAttributes
  rw [lookupA_foldl_insert]
  by_cases hp : k = protoKey
  · simp [hp, lookupA]
  · cases hf : (attrScan src.length src).reverse.find? (fun kv => kv.1 == k) <;>
      simp [hp, hf, lookupA]

/-- C8: the Button rule rewrites `<Button variant="primary">Go</Button>` to
`<button class="arena-btn">Go</button>`: the tag becomes `button` with base
class `arena-btn` and the `variant` attribute is stripped per the Button
rule's strip-list. -/
theorem c8_button_rewrite :
    extractPrimarySection "<Button variant=\"primary\">Go</Button>" =
      ⟨"<button class=\"arena-btn\">Go</button>",
        "<Button variant=\"primary\">Go</Button>"⟩ := by
  decide

/-- C9: `extractPrimarySection` is deterministic and referentially
transparent: equal input strings yield equal `ExtractionResult` values.  The
embedding is a pure function of the input string alone — the source module
keeps no mutable state (in particular its module-level regexes carry no `g`
flag, so no `lastIndex` persists between calls) — so equality of inputs
entails equality of outputs. -/
theorem c9_extraction_deterministic (s t : String) (h : s = t) :
    extractPrimarySection s = extractPrimarySection t := by
  rw [h]

/-- C9 witness: the determinism theorem applied at a concrete input. -/
theorem c9_extraction_deterministic_witness :
    extractPrimarySection "<main>A</main>" = extractPrimarySection "<main>A</main>" :=
  c9_extraction_deterministic "<main>A</main>" "<main>A</main>" rfl

/-- C10: the hero selector accepts more than a genuine `id="hero"`
attribute: `<section data-id="hero">...` is chosen as the hero candidate
(the `id=` substring match inside `data-id`), and so is a section with
`id="HERO"` (case-insensitive flag) — the latter even over an earlier main
element, proving the hero path (not a fallback) selected it. -/
theorem c10_hero_loose_matching :
    (extractPrimarySection "pre<section data-id=\"hero\">x</section>post").rawSection =
      "<section data-id=\"hero\">x</section>" ∧
    (extractPrimarySection "<main>A</main><section id=\"HERO\">B</section>").rawSection =
      "<section id=\"HERO\">B</section>" := by
  decide

end PrimarySection
